import Mathlib

/-!
# Manifest resolution (`internal/config/loader.go`)

A shallow embedding of `LoadManifest` and the properties of its three-part
result.  The filesystem probe `os.Stat` and the two collaborators
`ParseManifest` and `Validate` live outside `loader.go`; they are taken as
parameters, collected in `Env`.  The element type `Task` of the task mapping
is declared elsewhere as well and is a type parameter.
-/

namespace Config

/-- A Go `error` value as far as `LoadManifest` can observe or build one:
either an error handed over by a collaborator (`leaf`, with its message), or
the value built by `fmt.Errorf` with a `%w` verb (`wrapped`), which carries the
formatted message and the wrapped cause. -/
inductive GoError where
  | leaf (msg : String)
  | wrapped (msg : String) (cause : GoError)
  deriving DecidableEq, Repr

/-- The method `Error()`: the message of an error. -/
def GoError.Error : GoError → String
  | .leaf m => m
  | .wrapped m _ => m

/-- The method `Unwrap()`: the cause wrapped by `%w`, if there is one. -/
def GoError.Unwrap : GoError → Option GoError
  | .leaf _ => none
  | .wrapped _ c => some c

/-- `fmt.Errorf(pre + "%s: %w", path, err)` for the two format strings used in
`LoadManifest`: the text before `%s`, the path, `": "`, and the message of the
wrapped error. -/
def Errorf (pre path : String) (err : GoError) : GoError :=
  .wrapped (pre ++ path ++ ": " ++ err.Error) err

/-- The struct `Manifest`: `Version` and the mapping `Tasks` from task name to
task, kept as an association list (the empty map is `[]`). -/
structure Manifest (Task : Type) where
  Version : String
  Tasks : List (String × Task)
  deriving DecidableEq, Repr

/-- What `LoadManifest` calls from outside `loader.go`: `Stat p` is the error
of `os.Stat(p)` (`none` is Go's `nil`: the file is there), `ParseManifest p` is
the outcome of the parser on `p` (an error, or the parsed manifest: a parser
that returns a nil error returns a non-nil `*Manifest`), and `Validate m` is the
error of the validator (`none` is `nil`: accepted).  The functions are pure: the
filesystem does not change during a call. -/
structure Env (Task : Type) where
  Stat : String → Option GoError
  ParseManifest : String → Except GoError (Manifest Task)
  Validate : Manifest Task → Option GoError

/-- One call made to the outside world, in the order of execution. -/
inductive Call (Task : Type) where
  | stat (path : String)
  | parse (path : String)
  | validate (m : Manifest Task)
  deriving DecidableEq, Repr

/-- The three return values of `LoadManifest`: the `*Manifest` pointer (`none`
is `nil`), the flag `loaded`, and the `error` (`none` is `nil`). -/
structure Result (Task : Type) where
  manifest : Option (Manifest Task)
  loaded : Bool
  err : Option GoError
  deriving DecidableEq, Repr

/-- The slice `searchPaths` built at the start of `LoadManifest`. -/
def searchPaths (customPath : String) : List String :=
  [customPath, "./mcp-tasks.yaml", "./.mcp/tasks.yaml"]

/-- The value `emptyManifest` built after the loop: version `"1.0"` and a fresh
empty map. -/
def emptyManifest (Task : Type) : Manifest Task :=
  { Version := "1.0", Tasks := [] }

/-- The body of `LoadManifest` from the `for` loop on, run over the remaining
paths: the result together with the calls made.  A path that is empty or whose
`os.Stat` gives an error is `continue`d; the first other path is parsed and
validated and the function returns from inside the loop; when the paths are
exhausted the empty manifest is returned. -/
def searchLoop {Task : Type} (env : Env Task) : List String → Result Task × List (Call Task)
  | [] => ({ manifest := some (emptyManifest Task), loaded := false, err := none }, [])
  | path :: rest =>
    if path = "" then
      searchLoop env rest
    else
      match env.Stat path with
      | some _ =>
        let r := searchLoop env rest
        (r.1, Call.stat path :: r.2)
      | none =>
        match env.ParseManifest path with
        | .error err =>
          ({ manifest := none, loaded := false,
             err := some (Errorf "failed to parse manifest at " path err) },
           [Call.stat path, Call.parse path])
        | .ok manifest =>
          match env.Validate manifest with
          | some err =>
            ({ manifest := none, loaded := false,
               err := some (Errorf "invalid manifest at " path err) },
             [Call.stat path, Call.parse path, Call.validate manifest])
          | none =>
            ({ manifest := some manifest, loaded := true, err := none },
             [Call.stat path, Call.parse path, Call.validate manifest])

/-- The function `LoadManifest` with the sequence of outside calls it makes. -/
def LoadManifestTraced {Task : Type} (env : Env Task) (customPath : String) :
    Result Task × List (Call Task) :=
  searchLoop env (searchPaths customPath)

/-- The function `LoadManifest`: its three return values. -/
def LoadManifest {Task : Type} (env : Env Task) (customPath : String) : Result Task :=
  (LoadManifestTraced env customPath).1

/-- The calls `LoadManifest` makes to `os.Stat`, `ParseManifest` and `Validate`. -/
def LoadManifestCalls {Task : Type} (env : Env Task) (customPath : String) : List (Call Task) :=
  (LoadManifestTraced env customPath).2

/-- The loop body of `LoadManifest` below the existence check (the parse and
validate steps), at a path that passed the check: the result returned from
inside the loop and the calls made, the check included. -/
def loadAt {Task : Type} (env : Env Task) (path : String) : Result Task × List (Call Task) :=
  match env.ParseManifest path with
  | .error err =>
    ({ manifest := none, loaded := false,
       err := some (Errorf "failed to parse manifest at " path err) },
     [Call.stat path, Call.parse path])
  | .ok manifest =>
    match env.Validate manifest with
    | some err =>
      ({ manifest := none, loaded := false,
         err := some (Errorf "invalid manifest at " path err) },
       [Call.stat path, Call.parse path, Call.validate manifest])
    | none =>
      ({ manifest := some manifest, loaded := true, err := none },
       [Call.stat path, Call.parse path, Call.validate manifest])

/-- A path the loop does not skip: non-empty and passing the existence check. -/
def isCandidate {Task : Type} (env : Env Task) (p : String) : Bool :=
  decide (p ≠ "") && (env.Stat p).isNone

/-- The candidate the spec calls "the first existing candidate": the first path
of the list that is non-empty and passes the existence check. -/
def firstExisting {Task : Type} (env : Env Task) (paths : List String) : Option String :=
  paths.find? (isCandidate env)

/-- The existence checks on the paths in front of the first existing candidate:
one `os.Stat` call for each of them that is not the empty string. -/
def probesBefore {Task : Type} (env : Env Task) (paths : List String) : List (Call Task) :=
  ((paths.takeWhile (fun q => !isCandidate env q)).filter (fun q => decide (q ≠ ""))).map Call.stat

/-- The text `t` occurs in the text `s`. -/
def Contains (s t : String) : Prop := ∃ a b : String, s = a ++ t ++ b

/-! ## Concrete environments used to evaluate the code -/

/-- No file exists anywhere; parser and validator would accept everything. -/
def envNone : Env Nat where
  Stat := fun _ => some (.leaf "no such file or directory")
  ParseManifest := fun _ => .ok { Version := "2.0", Tasks := [("build", 1)] }
  Validate := fun _ => none

/-- Only `/tmp/x.yaml` is not valid YAML; every path exists, every other file
parses, and the validator accepts everything. -/
def envBadYaml : Env Nat where
  Stat := fun _ => none
  ParseManifest := fun p =>
    if p = "/tmp/x.yaml" then .error (.leaf "yaml: line 1: did not find expected key")
    else .ok { Version := "1.0", Tasks := [("build", 1)] }
  Validate := fun _ => none

/-- Every path exists and parses to a manifest named after nothing but its
version; the validator rejects version `"0.9"`, which is what `/tmp/x.yaml`
holds. -/
def envBadVersion : Env Nat where
  Stat := fun _ => none
  ParseManifest := fun p =>
    if p = "/tmp/x.yaml" then .ok { Version := "0.9", Tasks := [] }
    else .ok { Version := "1.0", Tasks := [("build", 1)] }
  Validate := fun m =>
    if m.Version = "0.9" then some (.leaf "unsupported version") else none

/-- Only the hidden-directory default `./.mcp/tasks.yaml` exists; it parses and
validates. -/
def envHidden : Env Nat where
  Stat := fun p =>
    if p = "./.mcp/tasks.yaml" then none else some (.leaf "no such file or directory")
  ParseManifest := fun p =>
    if p = "./.mcp/tasks.yaml" then .ok { Version := "1.0", Tasks := [("test", 7)] }
    else .error (.leaf "open: no such file or directory")
  Validate := fun _ => none

/-- Every path exists; the custom file `/tmp/x.yaml` and the two defaults hold
three different valid manifests. -/
def envAll : Env Nat where
  Stat := fun _ => none
  ParseManifest := fun p =>
    if p = "/tmp/x.yaml" then .ok { Version := "1.0", Tasks := [("custom", 1)] }
    else if p = "./mcp-tasks.yaml" then .ok { Version := "1.0", Tasks := [("root", 2)] }
    else .ok { Version := "1.0", Tasks := [("hidden", 3)] }
  Validate := fun _ => none

/-- As `envAll` for `/tmp/x.yaml`, but neither default exists and the parser
fails on everything else. -/
def envCustomOnly : Env Nat where
  Stat := fun p =>
    if p = "/tmp/x.yaml" then none else some (.leaf "no such file or directory")
  ParseManifest := fun p =>
    if p = "/tmp/x.yaml" then .ok { Version := "1.0", Tasks := [("custom", 1)] }
    else .error (.leaf "open: no such file or directory")
  Validate := fun _ => none

/-- The custom path is unreadable (`permission denied`), both defaults exist
and hold valid manifests. -/
def envDenied : Env Nat where
  Stat := fun p =>
    if p = "/root/x.yaml" then some (.leaf "permission denied") else none
  ParseManifest := fun p =>
    if p = "./mcp-tasks.yaml" then .ok { Version := "1.0", Tasks := [("root", 2)] }
    else .ok { Version := "1.0", Tasks := [("hidden", 3)] }
  Validate := fun _ => none

/-! ## The loop, path by path -/

theorem searchLoop_nil {Task : Type} (env : Env Task) :
    searchLoop env [] =
      ({ manifest := some (emptyManifest Task), loaded := false, err := none }, []) := by
  simp [searchLoop]

theorem searchLoop_empty {Task : Type} (env : Env Task) (rest : List String) :
    searchLoop env ("" :: rest) = searchLoop env rest := by
  simp [searchLoop]

theorem searchLoop_absent {Task : Type} (env : Env Task) (p : String) (rest : List String)
    (e : GoError) (hp : p ≠ "") (hs : env.Stat p = some e) :
    searchLoop env (p :: rest) = ((searchLoop env rest).1, Call.stat p :: (searchLoop env rest).2) := by
  simp [searchLoop, hp, hs]

theorem searchLoop_found {Task : Type} (env : Env Task) (p : String) (rest : List String)
    (hp : p ≠ "") (hs : env.Stat p = none) :
    searchLoop env (p :: rest) = loadAt env p := by
  simp only [searchLoop, hp, hs, loadAt, if_false]

/-- The loop in closed form: it skips the paths in front of the first existing
candidate (probing the non-empty ones) and returns what `loadAt` gives there,
or the empty manifest when there is no such candidate. -/
theorem searchLoop_eq {Task : Type} (env : Env Task) (ps : List String) :
    searchLoop env ps =
      match firstExisting env ps with
      | some p => ((loadAt env p).1, probesBefore env ps ++ (loadAt env p).2)
      | none =>
        ({ manifest := some (emptyManifest Task), loaded := false, err := none },
         probesBefore env ps) := by
  induction ps with
  | nil => simp [searchLoop, firstExisting, probesBefore]
  | cons p rest ih =>
    by_cases hp : p = ""
    · subst hp
      rw [searchLoop_empty, ih]
      simp [firstExisting, probesBefore, isCandidate]
    · cases hs : env.Stat p with
      | none =>
        rw [searchLoop_found env p rest hp hs]
        simp [firstExisting, probesBefore, isCandidate, hp, hs]
      | some e =>
        rw [searchLoop_absent env p rest e hp hs, ih]
        have hc : isCandidate env p = false := by simp [isCandidate, hs]
        have hf : firstExisting env (p :: rest) = firstExisting env rest := by
          simp [firstExisting, hc]
        have hb : probesBefore env (p :: rest) = (Call.stat p :: probesBefore env rest) := by
          simp [probesBefore, hc, hp]
        rw [hf, hb]
        cases firstExisting env rest <;> simp

theorem firstExisting_some {Task : Type} (env : Env Task) (ps : List String) (p : String)
    (h : firstExisting env ps = some p) : p ∈ ps ∧ p ≠ "" ∧ env.Stat p = none := by
  unfold firstExisting at h
  have h1 := List.find?_some h
  have h2 := List.mem_of_find?_eq_some h
  simp [isCandidate] at h1
  exact ⟨h2, h1.1, h1.2⟩

/-- The empty string is neither probed nor parsed by the loop. -/
theorem searchLoop_no_empty {Task : Type} (env : Env Task) (ps : List String) :
    Call.stat "" ∉ (searchLoop env ps).2 ∧ Call.parse "" ∉ (searchLoop env ps).2 := by
  induction ps with
  | nil => simp [searchLoop]
  | cons p rest ih =>
    have ih2 := ih
    by_cases hp : p = ""
    · subst hp
      rw [searchLoop_empty]
      exact ih2
    · have hp2 : ¬ ("" = p) := fun h => hp h.symm
      cases hs : env.Stat p with
      | none =>
        rw [searchLoop_found env p rest hp hs]
        unfold loadAt
        split
        · simp [hp2]
        · split <;> simp [hp2]
      | some e =>
        rw [searchLoop_absent env p rest e hp hs]
        simp [hp2, ih2.1, ih2.2]

/-- Two environments that agree on the paths of the list, and whose validators
agree, drive the loop to the same result through the same calls. -/
theorem searchLoop_congr {Task : Type} (env1 env2 : Env Task) (ps : List String)
    (hstat : ∀ p ∈ ps, env1.Stat p = env2.Stat p)
    (hparse : ∀ p ∈ ps, env1.ParseManifest p = env2.ParseManifest p)
    (hval : ∀ m, env1.Validate m = env2.Validate m) :
    searchLoop env1 ps = searchLoop env2 ps := by
  induction ps with
  | nil => simp [searchLoop]
  | cons p rest ih =>
    have ih2 := ih (fun q hq => hstat q (List.mem_cons_of_mem _ hq))
      (fun q hq => hparse q (List.mem_cons_of_mem _ hq))
    have h1 := hstat p (List.mem_cons_self _ _)
    have h2 := hparse p (List.mem_cons_self _ _)
    by_cases hp : p = ""
    · subst hp
      rw [searchLoop_empty, searchLoop_empty]
      exact ih2
    · cases hs : env1.Stat p with
      | none =>
        rw [searchLoop_found env1 p rest hp hs, searchLoop_found env2 p rest hp (h1 ▸ hs)]
        unfold loadAt
        rw [h2]
        cases env2.ParseManifest p with
        | error e => rfl
        | ok m => simp only [hval m]
      | some e =>
        rw [searchLoop_absent env1 p rest e hp hs,
          searchLoop_absent env2 p rest e hp (h1 ▸ hs), ih2]

/-- Every call in front of the first existing candidate is an existence check
on a non-empty path that failed it. -/
theorem probesBefore_mem {Task : Type} (env : Env Task) (ps : List String) (x : Call Task)
    (hx : x ∈ probesBefore env ps) : ∃ q, x = Call.stat q ∧ q ≠ "" ∧ env.Stat q ≠ none := by
  unfold probesBefore at hx
  rw [List.mem_map] at hx
  obtain ⟨q, hq, rfl⟩ := hx
  rw [List.mem_filter] at hq
  have h1 := List.mem_takeWhile_imp hq.1
  have h2 : q ≠ "" := by simpa using hq.2
  refine ⟨q, rfl, h2, ?_⟩
  intro hn
  simp [isCandidate, h2, hn] at h1

/-- The traced run in closed form at a custom path. -/
theorem LoadManifestTraced_eq {Task : Type} (env : Env Task) (c : String) :
    LoadManifestTraced env c =
      match firstExisting env (searchPaths c) with
      | some p => ((loadAt env p).1, probesBefore env (searchPaths c) ++ (loadAt env p).2)
      | none =>
        ({ manifest := some (emptyManifest Task), loaded := false, err := none },
         probesBefore env (searchPaths c)) :=
  searchLoop_eq env (searchPaths c)

theorem Contains_Errorf (pre path : String) (err : GoError) :
    Contains (Errorf pre path err).Error path :=
  ⟨pre, ": " ++ err.Error, by simp [Errorf, GoError.Error, String.append_assoc]⟩

/-- The four ways `LoadManifest` can end, each with the run that leads to it:
a file loaded, a parse failure, a validation failure, nothing found. -/
theorem LoadManifest_cases {Task : Type} (env : Env Task) (c : String) :
    (∃ p m, firstExisting env (searchPaths c) = some p ∧ env.ParseManifest p = .ok m ∧
      env.Validate m = none ∧ LoadManifest env c = Result.mk (some m) true none) ∨
    (∃ p e, firstExisting env (searchPaths c) = some p ∧ env.ParseManifest p = .error e ∧
      LoadManifest env c =
        Result.mk none false (some (Errorf "failed to parse manifest at " p e))) ∨
    (∃ p m e, firstExisting env (searchPaths c) = some p ∧ env.ParseManifest p = .ok m ∧
      env.Validate m = some e ∧
      LoadManifest env c = Result.mk none false (some (Errorf "invalid manifest at " p e))) ∨
    (firstExisting env (searchPaths c) = none ∧
      LoadManifest env c = Result.mk (some (emptyManifest Task)) false none) := by
  unfold LoadManifest
  rw [LoadManifestTraced_eq]
  cases hf : firstExisting env (searchPaths c) with
  | none => exact Or.inr (Or.inr (Or.inr ⟨rfl, rfl⟩))
  | some p =>
    cases hp : env.ParseManifest p with
    | error e =>
      refine Or.inr (Or.inl ⟨p, e, rfl, hp, ?_⟩)
      simp [loadAt, hp]
    | ok m =>
      cases hv : env.Validate m with
      | none =>
        refine Or.inl ⟨p, m, rfl, hp, hv, ?_⟩
        simp [loadAt, hp, hv]
      | some e =>
        refine Or.inr (Or.inr (Or.inl ⟨p, m, e, rfl, hp, hv, ?_⟩))
        simp [loadAt, hp, hv]

/-! ## The claims -/

/-- C1: with an empty `customPath` and both default files failing the existence
check, `LoadManifest` returns the manifest with `Version = "1.0"` and no tasks,
`loaded = false` and a nil error; it only probes the two defaults, and the result
is the same whatever parser and validator are plugged in. -/
theorem C1_nothing_found_gives_empty_manifest {Task : Type} (env : Env Task)
    (h1 : env.Stat "./mcp-tasks.yaml" ≠ none) (h2 : env.Stat "./.mcp/tasks.yaml" ≠ none) :
    LoadManifest env "" = Result.mk (some (Manifest.mk "1.0" [])) false none ∧
    LoadManifestCalls env "" = [Call.stat "./mcp-tasks.yaml", Call.stat "./.mcp/tasks.yaml"] ∧
    ∀ (parser : String → Except GoError (Manifest Task))
      (validator : Manifest Task → Option GoError),
      LoadManifest (Env.mk env.Stat parser validator) "" =
        Result.mk (some (Manifest.mk "1.0" [])) false none := by
  obtain ⟨e1, he1⟩ := Option.ne_none_iff_exists'.mp h1
  obtain ⟨e2, he2⟩ := Option.ne_none_iff_exists'.mp h2
  have key : ∀ env2 : Env Task, env2.Stat = env.Stat →
      LoadManifestTraced env2 "" =
        (Result.mk (some (Manifest.mk "1.0" [])) false none,
         [Call.stat "./mcp-tasks.yaml", Call.stat "./.mcp/tasks.yaml"]) := by
    intro env2 hst
    unfold LoadManifestTraced searchPaths
    rw [searchLoop_empty,
      searchLoop_absent env2 _ _ e1 (by decide) (by rw [hst]; exact he1),
      searchLoop_absent env2 _ _ e2 (by decide) (by rw [hst]; exact he2), searchLoop_nil]
    rfl
  refine ⟨?_, ?_, ?_⟩
  · simp [LoadManifest, key env rfl]
  · simp [LoadManifestCalls, key env rfl]
  · intro parser validator
    simp [LoadManifest, key (Env.mk env.Stat parser validator) rfl]

theorem C1_nothing_found_gives_empty_manifest_witness :
    LoadManifest envNone "" = Result.mk (some (Manifest.mk "1.0" [])) false none ∧
    LoadManifestCalls envNone "" =
      [Call.stat "./mcp-tasks.yaml", Call.stat "./.mcp/tasks.yaml"] ∧
    ∀ (parser : String → Except GoError (Manifest Nat))
      (validator : Manifest Nat → Option GoError),
      LoadManifest (Env.mk envNone.Stat parser validator) "" =
        Result.mk (some (Manifest.mk "1.0" [])) false none :=
  C1_nothing_found_gives_empty_manifest envNone (by decide) (by decide)

/-- C2: a non-empty `customPath` that passes the existence check wins: the
result and the calls of `LoadManifest` are the same in any two environments
that agree on the parse of `customPath` and on the validation of its output,
whatever they say about the two defaults; only `customPath` is probed and
parsed; and when parse and validate succeed the result is the parsed manifest
with `loaded = true` and a nil error. -/
theorem C2_custom_path_first_match_wins {Task : Type} (env1 env2 : Env Task) (c : String)
    (hc : c ≠ "") (h1 : env1.Stat c = none) (h2 : env2.Stat c = none)
    (hp : env1.ParseManifest c = env2.ParseManifest c)
    (hv : ∀ m, env1.ParseManifest c = .ok m → env1.Validate m = env2.Validate m) :
    LoadManifest env1 c = LoadManifest env2 c ∧
    LoadManifestCalls env1 c = LoadManifestCalls env2 c ∧
    (∀ q, q ≠ c → Call.stat q ∉ LoadManifestCalls env1 c ∧
      Call.parse q ∉ LoadManifestCalls env1 c) ∧
    (∀ m, env1.ParseManifest c = .ok m → env1.Validate m = none →
      LoadManifest env1 c = Result.mk (some m) true none) := by
  have t1 : LoadManifestTraced env1 c = loadAt env1 c := searchLoop_found env1 c _ hc h1
  have t2 : LoadManifestTraced env2 c = loadAt env2 c := searchLoop_found env2 c _ hc h2
  have hl : loadAt env1 c = loadAt env2 c := by
    unfold loadAt
    rw [← hp]
    cases hm : env1.ParseManifest c with
    | error e => rfl
    | ok m => simp only [hv m hm]
  refine ⟨?_, ?_, ?_, ?_⟩
  · simp [LoadManifest, t1, t2, hl]
  · simp [LoadManifestCalls, t1, t2, hl]
  · intro q hq
    simp only [LoadManifestCalls, t1]
    unfold loadAt
    split
    · simp [hq]
    · split <;> simp [hq]
  · intro m hm hval
    simp [LoadManifest, t1, loadAt, hm, hval]

theorem C2_custom_path_first_match_wins_witness :
    LoadManifest envAll "/tmp/x.yaml" = LoadManifest envCustomOnly "/tmp/x.yaml" ∧
    LoadManifestCalls envAll "/tmp/x.yaml" = LoadManifestCalls envCustomOnly "/tmp/x.yaml" ∧
    (∀ q, q ≠ "/tmp/x.yaml" → Call.stat q ∉ LoadManifestCalls envAll "/tmp/x.yaml" ∧
      Call.parse q ∉ LoadManifestCalls envAll "/tmp/x.yaml") ∧
    (∀ m, envAll.ParseManifest "/tmp/x.yaml" = .ok m → envAll.Validate m = none →
      LoadManifest envAll "/tmp/x.yaml" = Result.mk (some m) true none) :=
  C2_custom_path_first_match_wins envAll envCustomOnly "/tmp/x.yaml" (by decide) (by decide)
    (by decide) (by rfl) (fun _ _ => rfl)

/-- C3: with an empty `customPath`, `./mcp-tasks.yaml` failing the existence
check, and `./.mcp/tasks.yaml` existing, parsing to `m` and passing validation,
`LoadManifest` returns exactly `m` with `loaded = true` and a nil error. -/
theorem C3_hidden_default_is_loaded {Task : Type} (env : Env Task) (m : Manifest Task)
    (h1 : env.Stat "./mcp-tasks.yaml" ≠ none) (h2 : env.Stat "./.mcp/tasks.yaml" = none)
    (hp : env.ParseManifest "./.mcp/tasks.yaml" = .ok m) (hv : env.Validate m = none) :
    LoadManifest env "" = Result.mk (some m) true none := by
  obtain ⟨e1, he1⟩ := Option.ne_none_iff_exists'.mp h1
  unfold LoadManifest LoadManifestTraced searchPaths
  rw [searchLoop_empty, searchLoop_absent env _ _ e1 (by decide) he1,
    searchLoop_found env _ _ (by decide) h2]
  simp [loadAt, hp, hv]

theorem C3_hidden_default_is_loaded_witness :
    LoadManifest envHidden "" = Result.mk (some (Manifest.mk "1.0" [("test", 7)])) true none :=
  C3_hidden_default_is_loaded envHidden (Manifest.mk "1.0" [("test", 7)])
    (by decide) (by decide) (by rfl) (by decide)

/-- C4: if the first existing non-empty candidate `p` fails to parse with cause
`cause`, `LoadManifest` returns a nil manifest, `loaded = false` and an error
with message `"failed to parse manifest at <p>: <cause>"` that contains `p` and
wraps `cause`; the run stops at the parse of `p`: nothing else is parsed, nothing
is validated, and the only other calls are the failed existence checks in front
of `p`. -/
theorem C4_parse_failure_is_fatal {Task : Type} (env : Env Task) (c p : String)
    (cause : GoError)
    (hf : firstExisting env (searchPaths c) = some p)
    (hp : env.ParseManifest p = .error cause) :
    ∃ err, LoadManifest env c = Result.mk none false (some err) ∧
      err.Error = "failed to parse manifest at " ++ p ++ ": " ++ cause.Error ∧
      err.Unwrap = some cause ∧
      Contains err.Error p ∧
      LoadManifestCalls env c =
        probesBefore env (searchPaths c) ++ [Call.stat p, Call.parse p] ∧
      (∀ q, Call.parse q ∈ LoadManifestCalls env c → q = p) ∧
      (∀ m, Call.validate m ∉ LoadManifestCalls env c) := by
  have ht : LoadManifestTraced env c =
      (Result.mk none false (some (Errorf "failed to parse manifest at " p cause)),
       probesBefore env (searchPaths c) ++ [Call.stat p, Call.parse p]) := by
    rw [LoadManifestTraced_eq, hf]
    simp [loadAt, hp]
  refine ⟨Errorf "failed to parse manifest at " p cause, ?_, rfl, rfl,
    Contains_Errorf _ _ _, ?_, ?_, ?_⟩
  · simp [LoadManifest, ht]
  · simp [LoadManifestCalls, ht]
  · intro q hq
    simp only [LoadManifestCalls, ht, List.mem_append] at hq
    rcases hq with hq | hq
    · obtain ⟨r, hr, _⟩ := probesBefore_mem env _ _ hq
      cases hr
    · simpa using hq
  · intro m hm
    simp only [LoadManifestCalls, ht, List.mem_append] at hm
    rcases hm with hm | hm
    · obtain ⟨r, hr, _⟩ := probesBefore_mem env _ _ hm
      cases hr
    · simp at hm

theorem C4_parse_failure_is_fatal_witness :
    ∃ err, LoadManifest envBadYaml "/tmp/x.yaml" = Result.mk none false (some err) ∧
      err.Error = "failed to parse manifest at " ++ "/tmp/x.yaml" ++ ": " ++
        (GoError.leaf "yaml: line 1: did not find expected key").Error ∧
      err.Unwrap = some (GoError.leaf "yaml: line 1: did not find expected key") ∧
      Contains err.Error "/tmp/x.yaml" ∧
      LoadManifestCalls envBadYaml "/tmp/x.yaml" =
        probesBefore envBadYaml (searchPaths "/tmp/x.yaml") ++
          [Call.stat "/tmp/x.yaml", Call.parse "/tmp/x.yaml"] ∧
      (∀ q, Call.parse q ∈ LoadManifestCalls envBadYaml "/tmp/x.yaml" → q = "/tmp/x.yaml") ∧
      (∀ m, Call.validate m ∉ LoadManifestCalls envBadYaml "/tmp/x.yaml") :=
  C4_parse_failure_is_fatal envBadYaml "/tmp/x.yaml" "/tmp/x.yaml"
    (GoError.leaf "yaml: line 1: did not find expected key") (by decide) (by rfl)

/-- C5: if the first existing non-empty candidate `p` parses to `m` and the
validator rejects `m` with cause `cause`, `LoadManifest` returns a nil manifest,
`loaded = false` and an error with message `"invalid manifest at <p>: <cause>"`
that contains `p` and wraps `cause`; the run stops at the validation of `m`:
nothing but `p` is parsed, nothing but `m` is validated, and the only other calls
are the failed existence checks in front of `p`. -/
theorem C5_validation_failure_is_fatal {Task : Type} (env : Env Task) (c p : String)
    (m : Manifest Task) (cause : GoError)
    (hf : firstExisting env (searchPaths c) = some p)
    (hp : env.ParseManifest p = .ok m)
    (hv : env.Validate m = some cause) :
    ∃ err, LoadManifest env c = Result.mk none false (some err) ∧
      err.Error = "invalid manifest at " ++ p ++ ": " ++ cause.Error ∧
      err.Unwrap = some cause ∧
      Contains err.Error p ∧
      LoadManifestCalls env c =
        probesBefore env (searchPaths c) ++ [Call.stat p, Call.parse p, Call.validate m] ∧
      (∀ q, Call.parse q ∈ LoadManifestCalls env c → q = p) ∧
      (∀ k, Call.validate k ∈ LoadManifestCalls env c → k = m) := by
  have ht : LoadManifestTraced env c =
      (Result.mk none false (some (Errorf "invalid manifest at " p cause)),
       probesBefore env (searchPaths c) ++ [Call.stat p, Call.parse p, Call.validate m]) := by
    rw [LoadManifestTraced_eq, hf]
    simp [loadAt, hp, hv]
  refine ⟨Errorf "invalid manifest at " p cause, ?_, rfl, rfl,
    Contains_Errorf _ _ _, ?_, ?_, ?_⟩
  · simp [LoadManifest, ht]
  · simp [LoadManifestCalls, ht]
  · intro q hq
    simp only [LoadManifestCalls, ht, List.mem_append] at hq
    rcases hq with hq | hq
    · obtain ⟨r, hr, _⟩ := probesBefore_mem env _ _ hq
      cases hr
    · simpa using hq
  · intro k hk
    simp only [LoadManifestCalls, ht, List.mem_append] at hk
    rcases hk with hk | hk
    · obtain ⟨r, hr, _⟩ := probesBefore_mem env _ _ hk
      cases hr
    · simpa using hk

theorem C5_validation_failure_is_fatal_witness :
    ∃ err, LoadManifest envBadVersion "/tmp/x.yaml" = Result.mk none false (some err) ∧
      err.Error = "invalid manifest at " ++ "/tmp/x.yaml" ++ ": " ++
        (GoError.leaf "unsupported version").Error ∧
      err.Unwrap = some (GoError.leaf "unsupported version") ∧
      Contains err.Error "/tmp/x.yaml" ∧
      LoadManifestCalls envBadVersion "/tmp/x.yaml" =
        probesBefore envBadVersion (searchPaths "/tmp/x.yaml") ++
          [Call.stat "/tmp/x.yaml", Call.parse "/tmp/x.yaml",
           Call.validate (Manifest.mk "0.9" [])] ∧
      (∀ q, Call.parse q ∈ LoadManifestCalls envBadVersion "/tmp/x.yaml" →
        q = "/tmp/x.yaml") ∧
      (∀ k, Call.validate k ∈ LoadManifestCalls envBadVersion "/tmp/x.yaml" →
        k = Manifest.mk "0.9" []) :=
  C5_validation_failure_is_fatal envBadVersion "/tmp/x.yaml" "/tmp/x.yaml"
    (Manifest.mk "0.9" []) (GoError.leaf "unsupported version")
    (by decide) (by rfl) (by decide)

/-- C6, as the spec states it, fails: on a custom file that does not parse the
manifest returned is nil. -/
theorem C6_counterexample_nil_manifest_on_error :
    (LoadManifest envBadYaml "/tmp/x.yaml").manifest = none ∧
    (LoadManifest envBadYaml "/tmp/x.yaml").err ≠ none := by
  decide

/-- C6, amended: the manifest returned by `LoadManifest` is non-nil exactly on
the calls that return a nil error, where it is the manifest parsed from one of
the search paths (`loaded = true`) or the empty manifest (`loaded = false`); on
the calls that return an error the manifest is nil. -/
theorem C6_manifest_present_iff_no_error {Task : Type} (env : Env Task) (c : String) :
    ((LoadManifest env c).manifest ≠ none ↔ (LoadManifest env c).err = none) ∧
    ((LoadManifest env c).err = none →
      (∃ p m, p ∈ searchPaths c ∧ env.ParseManifest p = .ok m ∧
        (LoadManifest env c).manifest = some m ∧ (LoadManifest env c).loaded = true) ∨
      ((LoadManifest env c).manifest = some (Manifest.mk "1.0" []) ∧
        (LoadManifest env c).loaded = false)) ∧
    ((LoadManifest env c).err ≠ none → (LoadManifest env c).manifest = none) := by
  rcases LoadManifest_cases env c with ⟨p, m, hf, hp, _, hr⟩ | ⟨p, e, _, _, hr⟩ |
    ⟨p, m, e, _, _, _, hr⟩ | ⟨_, hr⟩
  · rw [hr]
    refine ⟨by simp, fun _ => Or.inl ⟨p, m, (firstExisting_some env _ p hf).1, hp, rfl, rfl⟩,
      by simp⟩
  · rw [hr]; simp
  · rw [hr]; simp
  · rw [hr]
    exact ⟨by simp, fun _ => Or.inr ⟨rfl, rfl⟩, by simp⟩

/-- C7: `LoadManifest` returns a non-nil error if and only if there is a first
existing non-empty candidate and that candidate fails to parse or parses to a
manifest the validator rejects; in particular, when every search path is empty
or fails the existence check (with whatever error), the error is nil. -/
theorem C7_error_iff_first_candidate_fails {Task : Type} (env : Env Task) (c : String) :
    ((LoadManifest env c).err ≠ none ↔
      ∃ p, firstExisting env (searchPaths c) = some p ∧
        ((∃ e, env.ParseManifest p = .error e) ∨
         (∃ m, env.ParseManifest p = .ok m ∧ env.Validate m ≠ none))) ∧
    ((∀ p ∈ searchPaths c, p = "" ∨ env.Stat p ≠ none) → (LoadManifest env c).err = none) := by
  rcases LoadManifest_cases env c with ⟨p, m, hf, hp, hv, hr⟩ | ⟨p, e, hf, hp, hr⟩ |
    ⟨p, m, e, hf, hp, hv, hr⟩ | ⟨hf, hr⟩
  · rw [hr]
    refine ⟨⟨fun h => absurd rfl h, ?_⟩, fun _ => rfl⟩
    rintro ⟨q, hq, h⟩
    rw [hf] at hq
    cases hq
    rcases h with ⟨e, he⟩ | ⟨k, hk, hkv⟩
    · rw [hp] at he; cases he
    · rw [hp] at hk; cases hk; exact absurd hv hkv
  · rw [hr]
    refine ⟨⟨fun _ => ⟨p, hf, Or.inl ⟨e, hp⟩⟩, fun _ => by simp⟩, ?_⟩
    intro hall
    obtain ⟨hmem, hne, hst⟩ := firstExisting_some env _ p hf
    rcases hall p hmem with h | h
    · exact absurd h hne
    · exact absurd hst h
  · rw [hr]
    refine ⟨⟨fun _ => ⟨p, hf, Or.inr ⟨m, hp, by simp [hv]⟩⟩, fun _ => by simp⟩, ?_⟩
    intro hall
    obtain ⟨hmem, hne, hst⟩ := firstExisting_some env _ p hf
    rcases hall p hmem with h | h
    · exact absurd h hne
    · exact absurd hst h
  · rw [hr]
    refine ⟨⟨fun h => absurd rfl h, ?_⟩, fun _ => rfl⟩
    rintro ⟨q, hq, _⟩
    rw [hf] at hq
    cases hq

/-- C8: a non-empty `customPath` on which the existence check returns an error
(any error) is skipped silently: `LoadManifest customPath` returns exactly what
`LoadManifest ""` returns in the same environment, after one extra probe of
`customPath`; and in no environment and for no argument is the empty string
passed to the existence check or to the parser. -/
theorem C8_failed_check_is_skipped {Task : Type} (env : Env Task) (c : String)
    (hc : c ≠ "") (hs : env.Stat c ≠ none) :
    LoadManifest env c = LoadManifest env "" ∧
    LoadManifestCalls env c = Call.stat c :: LoadManifestCalls env "" ∧
    ∀ (env2 : Env Task) (c2 : String),
      Call.stat "" ∉ LoadManifestCalls env2 c2 ∧ Call.parse "" ∉ LoadManifestCalls env2 c2 := by
  obtain ⟨e, he⟩ := Option.ne_none_iff_exists'.mp hs
  have t1 : LoadManifestTraced env c =
      ((LoadManifestTraced env "").1, Call.stat c :: (LoadManifestTraced env "").2) := by
    unfold LoadManifestTraced searchPaths
    rw [searchLoop_absent env c _ e hc he, searchLoop_empty]
  refine ⟨?_, ?_, ?_⟩
  · simp [LoadManifest, t1]
  · simp [LoadManifestCalls, t1]
  · intro env2 c2
    exact searchLoop_no_empty env2 (searchPaths c2)

theorem C8_failed_check_is_skipped_witness :
    LoadManifest envDenied "/root/x.yaml" = LoadManifest envDenied "" ∧
    LoadManifestCalls envDenied "/root/x.yaml" =
      Call.stat "/root/x.yaml" :: LoadManifestCalls envDenied "" ∧
    ∀ (env2 : Env Nat) (c2 : String),
      Call.stat "" ∉ LoadManifestCalls env2 c2 ∧ Call.parse "" ∉ LoadManifestCalls env2 c2 :=
  C8_failed_check_is_skipped envDenied "/root/x.yaml" (by decide) (by decide)

/-- C9: determinism: two runs of `LoadManifest` on the same argument, in
environments whose existence check and parser agree on the three search paths
and whose validators agree, give the same manifest, the same flag and the same
error, through the same sequence of calls. -/
theorem C9_deterministic {Task : Type} (env1 env2 : Env Task) (c : String)
    (hstat : ∀ p ∈ searchPaths c, env1.Stat p = env2.Stat p)
    (hparse : ∀ p ∈ searchPaths c, env1.ParseManifest p = env2.ParseManifest p)
    (hval : ∀ m, env1.Validate m = env2.Validate m) :
    LoadManifest env1 c = LoadManifest env2 c ∧
    LoadManifestCalls env1 c = LoadManifestCalls env2 c := by
  have h : LoadManifestTraced env1 c = LoadManifestTraced env2 c :=
    searchLoop_congr env1 env2 (searchPaths c) hstat hparse hval
  exact ⟨by simp [LoadManifest, h], by simp [LoadManifestCalls, h]⟩

theorem C9_deterministic_witness :
    LoadManifest envDenied "" = LoadManifest envAll "" ∧
    LoadManifestCalls envDenied "" = LoadManifestCalls envAll "" :=
  C9_deterministic envDenied envAll "" (by decide)
    (by
      intro p hp
      simp only [searchPaths, List.mem_cons, List.mem_singleton, List.not_mem_nil,
        or_false] at hp
      rcases hp with rfl | rfl | rfl <;> rfl)
    (fun _ => rfl)

/-- C10: every result of `LoadManifest` has exactly one of three shapes: a
manifest parsed from a search path and accepted by the validator, with
`loaded = true` and a nil error; a nil manifest with `loaded = false` and a
non-nil error; or the empty manifest (`Version = "1.0"`, no tasks) with
`loaded = false` and a nil error.  Hence `loaded = true` gives a nil error and a
validated manifest, and a non-nil error gives `loaded = false`. -/
theorem C10_three_result_shapes {Task : Type} (env : Env Task) (c : String) :
    ((∃ p m, p ∈ searchPaths c ∧ env.ParseManifest p = .ok m ∧ env.Validate m = none ∧
        LoadManifest env c = Result.mk (some m) true none) ∨
      (∃ e, LoadManifest env c = Result.mk none false (some e)) ∨
      LoadManifest env c = Result.mk (some (Manifest.mk "1.0" [])) false none) ∧
    ¬ ((∃ m, LoadManifest env c = Result.mk (some m) true none) ∧
        (∃ e, LoadManifest env c = Result.mk none false (some e))) ∧
    ¬ ((∃ m, LoadManifest env c = Result.mk (some m) true none) ∧
        LoadManifest env c = Result.mk (some (Manifest.mk "1.0" [])) false none) ∧
    ¬ ((∃ e, LoadManifest env c = Result.mk none false (some e)) ∧
        LoadManifest env c = Result.mk (some (Manifest.mk "1.0" [])) false none) ∧
    ((LoadManifest env c).loaded = true →
      (LoadManifest env c).err = none ∧
      ∃ m, (LoadManifest env c).manifest = some m ∧ env.Validate m = none) ∧
    ((LoadManifest env c).err ≠ none → (LoadManifest env c).loaded = false) := by
  refine ⟨?_, ?_, ?_, ?_, ?_, ?_⟩
  · rcases LoadManifest_cases env c with ⟨p, m, hf, hp, hv, hr⟩ | ⟨p, e, _, _, hr⟩ |
      ⟨p, m, e, _, _, _, hr⟩ | ⟨_, hr⟩
    · exact Or.inl ⟨p, m, (firstExisting_some env _ p hf).1, hp, hv, hr⟩
    · exact Or.inr (Or.inl ⟨_, hr⟩)
    · exact Or.inr (Or.inl ⟨_, hr⟩)
    · exact Or.inr (Or.inr hr)
  · rintro ⟨⟨m, h1⟩, ⟨e, h2⟩⟩
    rw [h1] at h2
    cases h2
  · rintro ⟨⟨m, h1⟩, h2⟩
    rw [h1] at h2
    cases h2
  · rintro ⟨⟨e, h1⟩, h2⟩
    rw [h1] at h2
    cases h2
  · rcases LoadManifest_cases env c with ⟨p, m, _, _, hv, hr⟩ | ⟨p, e, _, _, hr⟩ |
      ⟨p, m, e, _, _, _, hr⟩ | ⟨_, hr⟩
    · rw [hr]
      exact fun _ => ⟨rfl, m, rfl, hv⟩
    · rw [hr]; simp
    · rw [hr]; simp
    · rw [hr]; simp
  · rcases LoadManifest_cases env c with ⟨p, m, _, _, _, hr⟩ | ⟨p, e, _, _, hr⟩ |
      ⟨p, m, e, _, _, _, hr⟩ | ⟨_, hr⟩ <;> rw [hr] <;> simp

end Config
